import Mathlib

/-!
Verification development for the GeoCleanr coordinate validation and repair
pipeline (src/geocleanr/fixer.py and src/geocleanr/validator.py).

Python scalar values are embedded as the inductive type Value: absent keys and
null values collapse to Value.none (exactly as dict.get does in the source),
native numbers become rationals, and text becomes String.  Records and the
changes map of a FixResult are association lists with Python-dict update
semantics (overwrite in place, append new keys at the end).  Machine floats
are modelled by rationals: all arithmetic the pipeline performs (clamping,
modular wrap, absolute value, comparisons) is exact on the decimal inputs the
pipeline is specified over.
-/

namespace GeoCleanr

/-- Embedded Python scalar: null/absent, a native number, or text. -/
inductive Value where
  | none : Value
  | num : ℚ → Value
  | str : String → Value
  deriving DecidableEq

/-- Lookup in an association list (first match), as Python dict lookup. -/
def alFind {α : Type} : List (String × α) → String → Option α
  | [], _ => Option.none
  | (k', v) :: rest, k => if k' = k then some v else alFind rest k

/-- Python dict assignment: overwrite the first matching key in place, or
append the new key at the end. -/
def alSet {α : Type} : List (String × α) → String → α → List (String × α)
  | [], k, v => [(k, v)]
  | (k', v') :: rest, k, v =>
      if k' = k then (k', v) :: rest else (k', v') :: alSet rest k v

/-- Record: an open mapping from field name to scalar value. -/
abbrev Record := List (String × Value)

/-- Changes map of a FixResult: field name to a (previous, new) value pair. -/
abbrev Changes := List (String × (Value × Value))

/-- Python record.get(key): absent keys read as null. -/
def dictGet (r : Record) (k : String) : Value := (alFind r k).getD Value.none

/-- Python record[key] = value. -/
def dictSet (r : Record) (k : String) (v : Value) : Record := alSet r k v

/-- Whitespace as stripped by Python str.strip on ASCII text. -/
def isSpace (c : Char) : Bool :=
  c = ' ' ∨ c = '\t' ∨ c = '\n' ∨ c = '\r' ∨ c = '\x0b' ∨ c = '\x0c'

/-- Python str.strip: drop whitespace from both ends. -/
def stripChars (cs : List Char) : List Char :=
  ((cs.dropWhile isSpace).reverse.dropWhile isSpace).reverse

/-- Python text.replace with a one-character pattern: replace every comma by
a period. -/
def replaceCommas (cs : List Char) : List Char :=
  cs.map (fun c => if c = ',' then '.' else c)

/-- ASCII decimal digit test. -/
def isDig (c : Char) : Bool := '0' ≤ c ∧ c ≤ '9'

/-- Numeric value of a digit string, most significant first. -/
def digitsVal (cs : List Char) : ℕ :=
  cs.foldl (fun a c => 10 * a + (c.toNat - 48)) 0

/-- Value of a fractional digit block: digits divided by the matching power
of ten. -/
def fracVal (cs : List Char) : ℚ := (digitsVal cs : ℚ) / (10 : ℚ) ^ cs.length

/-- Integer power of ten over the rationals. -/
def qpow10 (e : ℤ) : ℚ :=
  if 0 ≤ e then (10 : ℚ) ^ e.toNat else 1 / (10 : ℚ) ^ (-e).toNat

/-- Exponent suffix of a float literal: empty, or e/E followed by an optional
sign and at least one digit, consuming the rest of the input. -/
def parseExpTail (cs : List Char) : Option ℤ :=
  match cs with
  | [] => some 0
  | c :: rest =>
      if c = 'e' ∨ c = 'E' then
        let signed : Bool × List Char :=
          match rest with
          | '+' :: r => (false, r)
          | '-' :: r => (true, r)
          | r => (false, r)
        if signed.2 ≠ [] ∧ signed.2.all isDig then
          some (if signed.1 then -(digitsVal signed.2 : ℤ) else (digitsVal signed.2 : ℤ))
        else Option.none
      else Option.none

/-- Unsigned float literal: digits with an optional point and fraction, or a
point-led fraction, followed by an optional exponent. -/
def parseUnsigned (cs : List Char) : Option ℚ :=
  let ip := cs.takeWhile isDig
  let r1 := cs.dropWhile isDig
  match r1 with
  | '.' :: r2 =>
      let fp := r2.takeWhile isDig
      let r3 := r2.dropWhile isDig
      if ip.isEmpty ∧ fp.isEmpty then Option.none
      else (parseExpTail r3).map (fun e => ((digitsVal ip : ℚ) + fracVal fp) * qpow10 e)
  | _ =>
      if ip.isEmpty then Option.none
      else (parseExpTail r1).map (fun e => (digitsVal ip : ℚ) * qpow10 e)

/-- Python float(text) on finite decimal literals: strip whitespace, optional
sign, then an unsigned literal.  The inf/nan spellings and underscore digit
separators of the full runtime grammar fall outside the coordinate-data
domain modelled here and read as parse failures. -/
def parseFloat? (cs : List Char) : Option ℚ :=
  match stripChars cs with
  | '+' :: r => parseUnsigned r
  | '-' :: r => (parseUnsigned r).map Neg.neg
  | r => parseUnsigned r

/-- Python float modulo for a positive divisor: remainder with the sign of
the divisor. -/
def pymod (a b : ℚ) : ℚ := a - b * (⌊a / b⌋ : ℤ)

unseal Rat.add Rat.mul Rat.sub Rat.inv in
example : parseFloat? (" 12.5 ".toList) = some (25 / 2) := by decide

unseal Rat.add Rat.mul Rat.sub Rat.inv in
example : parseFloat? ("1e2".toList) = some 100 := by decide

unseal Rat.add Rat.mul Rat.sub Rat.inv in
example : parseFloat? ("-.5".toList) = some (-(1 / 2)) := by decide

example : parseFloat? ("abc".toList) = Option.none := by decide

example : parseFloat? ("12x".toList) = Option.none := by decide

unseal Rat.add Rat.mul Rat.sub Rat.inv in
example : pymod 530 360 = 170 := by decide

/-- Uppercased compass letter test on the final character of a cleaned
textual coordinate. -/
def isCompass (c : Char) : Bool :=
  c.toUpper = 'N' ∨ c.toUpper = 'S' ∨ c.toUpper = 'E' ∨ c.toUpper = 'W'

/-- CoordinateFixer._coerce_value: normalize a scalar into a float if
possible.  Returns the coerced value (null on failure), the fix codes noted,
and whether the value changed (Python number != original, which is numeric
equality between numbers and always true between a number and the original
text). -/
def coerceValue (v : Value) : Option ℚ × List String × Bool :=
  match v with
  | Value.none => (Option.none, [], false)
  | Value.num q => (some q, [], false)
  | Value.str s =>
      let cleaned := replaceCommas (stripChars s.toList)
      let afterCompass : ℚ ⊕ List Char :=
        match cleaned.getLast? with
        | some c =>
            if isCompass c then
              let body := cleaned.dropLast
              match parseFloat? body with
              | some q =>
                  Sum.inl (if c.toUpper = 'S' ∨ c.toUpper = 'W' then -|q| else |q|)
              | Option.none => Sum.inr body
            else Sum.inr cleaned
        | Option.none => Sum.inr cleaned
      match afterCompass with
      | Sum.inl q => (some q, ["coerced_from_string"], true)
      | Sum.inr t =>
          match parseFloat? t with
          | some q => (some q, ["coerced_from_string"], true)
          | Option.none => (Option.none, ["coerced_from_string", "coerce_failed"], false)

/-- CoordinateFixer._looks_swapped: latitude in longitude-like range while
longitude is in latitude-like range. -/
def looksSwapped (lat lon : ℚ) : Bool :=
  decide (90 < |lat|) && decide (|lat| ≤ 180) && decide (|lon| ≤ 90)

/-- CoordinateFixer._wrap_longitude: remap 0..360-style longitudes into
-180..180; values beyond plus or minus 360 are left alone. -/
def wrapLongitude (lon : ℚ) : ℚ × Bool :=
  if -180 ≤ lon ∧ lon ≤ 180 then (lon, false)
  else if -360 ≤ lon ∧ lon ≤ 360 then (pymod (lon + 180) 360 - 180, true)
  else (lon, false)

/-- CoordinateFixer._handle_outlier: when a ceiling is configured, replace a
value of larger magnitude with the fallback for that axis. -/
def handleOutlier (maxAbs : Option ℚ) (value fallbackValue : ℚ) : ℚ × Bool :=
  match maxAbs with
  | Option.none => (value, false)
  | some m => if m < |value| then (fallbackValue, true) else (value, false)

/-- CoordinateFixer._clip: numeric clamp into a closed interval. -/
def clipValue (value lower upper : ℚ) : ℚ := min (max value lower) upper

/-- Constructor configuration of CoordinateFixer, with its Python defaults. -/
structure FixerConfig where
  lat_field : String := "lat"
  lon_field : String := "lon"
  fallback : ℚ × ℚ := (0, 0)
  clip : Bool := true
  max_abs : Option ℚ := Option.none

/-- CoordinateFixer() with every argument left at its default. -/
def defaultFixer : FixerConfig := {}

/-- FixResult: repaired record, ordered fix codes, and the audit changes map. -/
structure FixResult where
  record : Record
  fixes : List String
  changes : Changes
  deriving DecidableEq

/-- Working state of the repair chain after the missing sides are filled:
current latitude and longitude, fix codes so far, changes map so far. -/
structure ChainState where
  lat : ℚ
  lon : ℚ
  fixes : List String
  changes : Changes
  deriving DecidableEq

/-- Float-or-null as stored into the changes map by the coercion step. -/
def optToValue : Option ℚ → Value
  | some q => Value.num q
  | Option.none => Value.none

/-- Swap step of fix_record: when the pair looks swapped, exchange the values,
note swapped_axes, and log both fields against their original values. -/
def swapStage (cfg : FixerConfig) (lat0 lon0 : Value) (s : ChainState) : ChainState :=
  if looksSwapped s.lat s.lon then
    { lat := s.lon, lon := s.lat,
      fixes := s.fixes ++ ["swapped_axes"],
      changes := alSet (alSet s.changes cfg.lat_field (lat0, Value.num s.lon))
        cfg.lon_field (lon0, Value.num s.lat) }
  else s

/-- Wrap step of fix_record: normalize 0..360 longitudes, logging the value
the step received rather than the original one (as the source does). -/
def wrapStage (cfg : FixerConfig) (s : ChainState) : ChainState :=
  let w := wrapLongitude s.lon
  if w.2 then
    { s with
        lon := w.1,
        fixes := s.fixes ++ ["lon_wrapped"],
        changes := alSet s.changes cfg.lon_field (Value.num s.lon, Value.num w.1) }
  else { s with lon := w.1 }

/-- Outlier step of fix_record: replace extreme spikes on each axis by the
fallback component, logging against the original record values. -/
def outlierStage (cfg : FixerConfig) (lat0 lon0 : Value) (s : ChainState) : ChainState :=
  let lr := handleOutlier cfg.max_abs s.lat cfg.fallback.1
  let nr := handleOutlier cfg.max_abs s.lon cfg.fallback.2
  let f1 := if lr.2 then s.fixes ++ ["lat_outlier"] else s.fixes
  let c1 := if lr.2 then alSet s.changes cfg.lat_field (lat0, Value.num lr.1) else s.changes
  let f2 := if nr.2 then f1 ++ ["lon_outlier"] else f1
  let c2 := if nr.2 then alSet c1 cfg.lon_field (lon0, Value.num nr.1) else c1
  { lat := lr.1, lon := nr.1, fixes := f2, changes := c2 }

/-- Clip step of fix_record: clamp both axes into canonical bounds when clip
is enabled, logging the pre-clip value (as the source does). -/
def clipStage (cfg : FixerConfig) (s : ChainState) : ChainState :=
  if cfg.clip then
    let cl := clipValue s.lat (-90) 90
    let cn := clipValue s.lon (-180) 180
    let f1 := if cl ≠ s.lat then s.fixes ++ ["lat_clipped"] else s.fixes
    let c1 := if cl ≠ s.lat then alSet s.changes cfg.lat_field (Value.num s.lat, Value.num cl)
      else s.changes
    let f2 := if cn ≠ s.lon then f1 ++ ["lon_clipped"] else f1
    let c2 := if cn ≠ s.lon then alSet c1 cfg.lon_field (Value.num s.lon, Value.num cn)
      else c1
    { lat := cl, lon := cn, fixes := f2, changes := c2 }
  else s

/-- Coercion step of fix_record over both raw values: the coerced pair, the
accumulated fix codes, and the changes entries for whichever value changed. -/
def coerceStage (cfg : FixerConfig) (lat0 lon0 : Value) :
    (Option ℚ × Option ℚ) × List String × Changes :=
  let cl := coerceValue lat0
  let cn := coerceValue lon0
  let fixes := cl.2.1 ++ cn.2.1
  let changes0 := if cl.2.2 then alSet ([] : Changes) cfg.lat_field (lat0, optToValue cl.1)
    else ([] : Changes)
  let changes1 := if cn.2.2 then alSet changes0 cfg.lon_field (lon0, optToValue cn.1)
    else changes0
  ((cl.1, cn.1), fixes, changes1)

/-- Partial-missing step of fix_record: fill only a null side from the
fallback, leaving a surviving good value untouched. -/
def fillStage (cfg : FixerConfig) (lat0 lon0 : Value) (latOpt lonOpt : Option ℚ)
    (fixes : List String) (changes : Changes) : ChainState :=
  let p1 : ℚ × List String × Changes :=
    match latOpt with
    | Option.none =>
        (cfg.fallback.1, fixes ++ ["lat_filled"],
          alSet changes cfg.lat_field (lat0, Value.num cfg.fallback.1))
    | some q => (q, fixes, changes)
  let p2 : ℚ × List String × Changes :=
    match lonOpt with
    | Option.none =>
        (cfg.fallback.2, p1.2.1 ++ ["lon_filled"],
          alSet p1.2.2 cfg.lon_field (lon0, Value.num cfg.fallback.2))
    | some q => (q, p1.2.1, p1.2.2)
  ⟨p1.1, p2.1, p2.2.1, p2.2.2⟩

/-- CoordinateFixer.fix_record: the ordered repair chain.  Coerce both raw
values, fall back wholesale when both are null (early return), fill a single
missing side, then swap, wrap, guard outliers, clip, and write the final pair
back into a copy of the record. -/
def fixRecord (cfg : FixerConfig) (record : Record) : FixResult :=
  let lat0 := dictGet record cfg.lat_field
  let lon0 := dictGet record cfg.lon_field
  let c := coerceStage cfg lat0 lon0
  if c.1.1 = Option.none ∧ c.1.2 = Option.none then
    { record := dictSet (dictSet record cfg.lat_field (Value.num cfg.fallback.1))
        cfg.lon_field (Value.num cfg.fallback.2),
      fixes := c.2.1 ++ ["filled_missing"],
      changes := alSet (alSet c.2.2 cfg.lat_field (lat0, Value.num cfg.fallback.1))
        cfg.lon_field (lon0, Value.num cfg.fallback.2) }
  else
    let s4 := clipStage cfg (outlierStage cfg lat0 lon0 (wrapStage cfg
      (swapStage cfg lat0 lon0 (fillStage cfg lat0 lon0 c.1.1 c.1.2 c.2.1 c.2.2))))
    { record := dictSet (dictSet record cfg.lat_field (Value.num s4.lat))
        cfg.lon_field (Value.num s4.lon),
      fixes := s4.fixes,
      changes := s4.changes }

/-- ValidationIssue: what failed and where. -/
structure ValidationIssue where
  index : ℕ
  field : String
  message : String
  deriving DecidableEq

/-- Constructor configuration of GeometryValidator, with its Python defaults. -/
structure ValidatorConfig where
  lat_field : String := "lat"
  lon_field : String := "lon"
  precision : Option ℕ := Option.none

/-- GeometryValidator() with every argument left at its default. -/
def defaultValidator : ValidatorConfig := {}

/-- Python float(value) inside the validator: numbers pass through, text is
parsed, null raises and is caught by the caller. -/
def toFloat? : Value → Option ℚ
  | Value.num q => some q
  | Value.str s => parseFloat? s.toList
  | Value.none => Option.none

/-- GeometryValidator._within_range: numeric coercion plus closed-interval
test; any coercion failure reads as out of range. -/
def withinRange (v : Value) (lower upper : ℚ) : Bool :=
  match toFloat? v with
  | some q => decide (lower ≤ q) && decide (q ≤ upper)
  | Option.none => false

/-- Fraction-digit count of a decimal text: length of the part after the last
point with trailing zeros stripped, zero when there is no point. -/
def decimalsOfText (cs : List Char) : ℕ :=
  if cs.contains '.' then
    ((cs.reverse.takeWhile (fun c => c ≠ '.')).dropWhile (fun c => c = '0')).length
  else 0

/-- GeometryValidator._count_decimals over the text form of a value.  Text
renders as itself and null renders without a point.  For numbers the decimal
rendering of a rational is modelled as the least power of ten clearing the
denominator (capped), which is the trailing-zero-stripped fraction length for
every terminating decimal; binary rounding artifacts of machine floats lie
outside the rational model. -/
def countDecimals : Value → ℕ
  | Value.str s => decimalsOfText s.toList
  | Value.num q => ((List.range 400).find? (fun n => (q * (10 : ℚ) ^ n).den = 1)).getD 400
  | Value.none => 0

/-- GeometryValidator._has_precision: both values show at least the required
fraction digits. -/
def hasPrecision (p : ℕ) (lat lon : Value) : Bool :=
  decide (p ≤ countDecimals lat) && decide (p ≤ countDecimals lon)

/-- Issues of a single row at a given index: missing short-circuits, then
bounds checks on each axis, then the optional precision check. -/
def validateRow (cfg : ValidatorConfig) (idx : ℕ) (row : Record) : List ValidationIssue :=
  let lat := dictGet row cfg.lat_field
  let lon := dictGet row cfg.lon_field
  if lat = Value.none ∨ lon = Value.none then
    [⟨idx, "coordinates", "Missing latitude or longitude"⟩]
  else
    (if withinRange lat (-90) 90 then [] else [⟨idx, cfg.lat_field, "Latitude outside bounds"⟩]) ++
    (if withinRange lon (-180) 180 then [] else [⟨idx, cfg.lon_field, "Longitude outside bounds"⟩]) ++
    (match cfg.precision with
     | some p =>
         if hasPrecision p lat lon then []
         else [⟨idx, "precision", "Expected " ++ toString p ++ " decimal places"⟩]
     | Option.none => [])

/-- GeometryValidator.validate from a starting index, one row at a time. -/
def validateFrom (cfg : ValidatorConfig) (idx : ℕ) : List Record → List ValidationIssue
  | [] => []
  | row :: rest => validateRow cfg idx row ++ validateFrom cfg (idx + 1) rest

/-- GeometryValidator.validate: ordered issues over an ordered row sequence. -/
def validate (cfg : ValidatorConfig) (rows : List Record) : List ValidationIssue :=
  validateFrom cfg 0 rows

/-- GeometryValidator.is_valid: no issues at all. -/
def isValid (cfg : ValidatorConfig) (rows : List Record) : Bool :=
  validate cfg rows = []

/-! Association-list lemmas: dict updates behave as key-indexed maps. -/

theorem alFind_alSet_self {α : Type} (c : List (String × α)) (k : String) (v : α) :
    alFind (alSet c k v) k = some v := by
  induction c with
  | nil => simp [alSet, alFind]
  | cons hd tl ih =>
      obtain ⟨k', v'⟩ := hd
      by_cases h : k' = k
      · simp [alSet, alFind, h]
      · simp [alSet, alFind, h, ih]

theorem alFind_alSet_ne {α : Type} (c : List (String × α)) (k k' : String) (v : α)
    (h : k' ≠ k) : alFind (alSet c k v) k' = alFind c k' := by
  induction c with
  | nil => simp [alSet, alFind, Ne.symm h]
  | cons hd tl ih =>
      obtain ⟨k0, v0⟩ := hd
      by_cases h0 : k0 = k
      · subst h0
        simp [alSet, alFind, Ne.symm h]
      · simp [alSet, alFind, h0, ih]

theorem alSet_of_find {α : Type} (c : List (String × α)) (k : String) (v : α)
    (h : alFind c k = some v) : alSet c k v = c := by
  induction c with
  | nil => simp [alFind] at h
  | cons hd tl ih =>
      obtain ⟨k0, v0⟩ := hd
      by_cases h0 : k0 = k
      · subst h0
        simp [alFind] at h
        simp [alSet, h]
      · simp [alFind, h0] at h
        simp [alSet, h0, ih h]

theorem dictGet_dictSet_self (r : Record) (k : String) (v : Value) :
    dictGet (dictSet r k v) k = v := by
  simp [dictGet, dictSet, alFind_alSet_self]

theorem dictGet_dictSet_ne (r : Record) (k k' : String) (v : Value) (h : k' ≠ k) :
    dictGet (dictSet r k v) k' = dictGet r k' := by
  simp [dictGet, dictSet, alFind_alSet_ne _ _ _ _ h]

/-- Keys of an association list. -/
def alKeys {α : Type} (c : List (String × α)) : List String := c.map Prod.fst

/-- The changes map invariant: no field name appears twice. -/
def nodupKeys {α : Type} (c : List (String × α)) : Prop := (alKeys c).Nodup

theorem alKeys_alSet {α : Type} (c : List (String × α)) (k : String) (v : α) :
    alKeys (alSet c k v) = alKeys c ∨
      (alFind c k = Option.none ∧ alKeys (alSet c k v) = alKeys c ++ [k]) := by
  induction c with
  | nil => right; simp [alSet, alFind, alKeys]
  | cons hd tl ih =>
      obtain ⟨k0, v0⟩ := hd
      by_cases h0 : k0 = k
      · left; simp [alSet, h0, alKeys]
      · rcases ih with h | h
        · left
          simp only [alKeys, List.map] at h ⊢
          simp [alSet, h0, h]
        · right
          simp only [alKeys, List.map] at h ⊢
          simp [alSet, alFind, h0, h.1, h.2]

theorem not_mem_alKeys_of_find_none {α : Type} (c : List (String × α)) (k : String)
    (h : alFind c k = Option.none) : k ∉ alKeys c := by
  induction c with
  | nil => simp [alKeys]
  | cons hd tl ih =>
      obtain ⟨k0, v0⟩ := hd
      by_cases h0 : k0 = k
      · simp [alFind, h0] at h
      · simp [alFind, h0] at h
        have htl := ih h
        simp only [alKeys, List.map_cons]
        intro hm
        rcases List.mem_cons.mp hm with hm | hm
        · exact h0 hm.symm
        · exact htl hm

theorem nodupKeys_alSet {α : Type} (c : List (String × α)) (k : String) (v : α)
    (h : nodupKeys c) : nodupKeys (alSet c k v) := by
  rcases alKeys_alSet c k v with h1 | h1
  · simpa [nodupKeys, h1] using h
  · have hk := not_mem_alKeys_of_find_none c k h1.1
    have h' : (alKeys c).Nodup := h
    rw [nodupKeys, h1.2]
    exact List.Nodup.append h' (List.nodup_singleton k)
      (by simpa [List.disjoint_singleton] using hk)

theorem nodupKeys_nil {α : Type} : nodupKeys ([] : List (String × α)) := by
  simp [nodupKeys, alKeys]

theorem nodupKeys_ite {α : Type} (b : Prop) [Decidable b] (c : List (String × α))
    (k : String) (v : α) (h : nodupKeys c) :
    nodupKeys (if b then alSet c k v else c) := by
  by_cases hb : b
  · simpa [hb] using nodupKeys_alSet c k v h
  · simpa [hb] using h

/-! Numeric lemmas for the wrap and clip helpers. -/

theorem pymod_eq_mul_fract (a b : ℚ) (hb : b ≠ 0) :
    pymod a b = b * Int.fract (a / b) := by
  rw [pymod, Int.fract]
  field_simp

theorem pymod_nonneg (a b : ℚ) (hb : 0 < b) : 0 ≤ pymod a b := by
  rw [pymod_eq_mul_fract a b (ne_of_gt hb)]
  exact mul_nonneg (le_of_lt hb) (Int.fract_nonneg _)

theorem pymod_lt (a b : ℚ) (hb : 0 < b) : pymod a b < b := by
  rw [pymod_eq_mul_fract a b (ne_of_gt hb)]
  calc b * Int.fract (a / b) < b * 1 := by
        exact mul_lt_mul_of_pos_left (Int.fract_lt_one _) hb
    _ = b := mul_one b

theorem wrapLongitude_of_inRange (x : ℚ) (h : -180 ≤ x ∧ x ≤ 180) :
    wrapLongitude x = (x, false) := by
  simp [wrapLongitude, h]

theorem wrapLongitude_not_wrapped (x : ℚ) (h : (wrapLongitude x).2 = false) :
    (wrapLongitude x).1 = x := by
  rw [wrapLongitude] at *
  by_cases h1 : -180 ≤ x ∧ x ≤ 180
  · simp [h1]
  · by_cases h2 : -360 ≤ x ∧ x ≤ 360
    · simp [h1, h2] at h
    · simp [h1, h2]

theorem wrapLongitude_wrapped_inRange (x : ℚ) (h : (wrapLongitude x).2 = true) :
    -180 ≤ (wrapLongitude x).1 ∧ (wrapLongitude x).1 ≤ 180 := by
  rw [wrapLongitude] at *
  by_cases h1 : -180 ≤ x ∧ x ≤ 180
  · simp [h1] at h
  · by_cases h2 : -360 ≤ x ∧ x ≤ 360
    · simp only [h1, h2, if_false, if_true]
      have hge := pymod_nonneg (x + 180) 360 (by norm_num)
      have hlt := pymod_lt (x + 180) 360 (by norm_num)
      constructor <;> simp <;> linarith
    · simp [h1, h2] at h

theorem clipValue_lower (v lower upper : ℚ) (h : lower ≤ upper) :
    lower ≤ clipValue v lower upper := by
  rw [clipValue]
  exact le_min (le_max_right v lower) h

theorem clipValue_upper (v lower upper : ℚ) : clipValue v lower upper ≤ upper := by
  rw [clipValue]
  exact min_le_right _ _

theorem clipValue_of_mem (v lower upper : ℚ) (h1 : lower ≤ v) (h2 : v ≤ upper) :
    clipValue v lower upper = v := by
  rw [clipValue, max_eq_left h1, min_eq_left h2]

theorem clipValue_idem (v lower upper : ℚ) (h : lower ≤ upper) :
    clipValue (clipValue v lower upper) lower upper = clipValue v lower upper :=
  clipValue_of_mem _ _ _ (clipValue_lower v lower upper h) (clipValue_upper v lower upper)

/-- C8: for every numeric value the longitude wrap and the clip operations
are idempotent, and a clipped latitude always lies in the interval from -90
to 90 while a clipped longitude lies in the interval from -180 to 180. -/
theorem wrap_clip_idempotent_and_clip_bounds (x : ℚ) :
    (wrapLongitude (wrapLongitude x).1).1 = (wrapLongitude x).1 ∧
    clipValue (clipValue x (-90) 90) (-90) 90 = clipValue x (-90) 90 ∧
    clipValue (clipValue x (-180) 180) (-180) 180 = clipValue x (-180) 180 ∧
    -90 ≤ clipValue x (-90) 90 ∧ clipValue x (-90) 90 ≤ 90 ∧
    -180 ≤ clipValue x (-180) 180 ∧ clipValue x (-180) 180 ≤ 180 := by
  refine ⟨?_, clipValue_idem x (-90) 90 (by norm_num),
    clipValue_idem x (-180) 180 (by norm_num),
    clipValue_lower x (-90) 90 (by norm_num), clipValue_upper x (-90) 90,
    clipValue_lower x (-180) 180 (by norm_num), clipValue_upper x (-180) 180⟩
  by_cases hf : (wrapLongitude x).2 = true
  · have hb := wrapLongitude_wrapped_inRange x hf
    rw [wrapLongitude_of_inRange _ hb]
  · have hx := wrapLongitude_not_wrapped x (by simpa using hf)
    rw [hx]
    exact hx

/-- Modelled from the spec: step 1 of the chain on a textual value.  Trim
surrounding whitespace, replace comma decimal separators with a period, and
when the final character is a compass letter strip it and apply its sign
convention (S and W force the magnitude negative, N and E force it positive)
before parsing the remainder as a float; record coerced_from_string for any
textual value so processed, and on final parse failure yield null and record
coerce_failed. -/
def coerceTextSpec (s : String) : Option ℚ × List String :=
  let t := replaceCommas (stripChars s.toList)
  let parsed : Option ℚ :=
    match t.getLast? with
    | some c =>
        if isCompass c then
          match parseFloat? t.dropLast with
          | some q => some (if c.toUpper = 'S' ∨ c.toUpper = 'W' then -|q| else |q|)
          | Option.none => Option.none
        else parseFloat? t
    | Option.none => parseFloat? t
  match parsed with
  | some q => (some q, ["coerced_from_string"])
  | Option.none => (Option.none, ["coerced_from_string", "coerce_failed"])

/-- C7: on every textual value the coercion step of fix_record agrees with
the specified treatment: trim, comma-to-period, compass-letter stripping with
its sign convention, the coerced_from_string note, and null plus the
coerce_failed note on final parse failure. -/
theorem coerce_string_agrees_spec (s : String) :
    ((coerceValue (Value.str s)).1, (coerceValue (Value.str s)).2.1) = coerceTextSpec s := by
  rw [coerceValue, coerceTextSpec]
  cases hL : (replaceCommas (stripChars s.data)).getLast? with
  | none =>
      cases hp : parseFloat? (replaceCommas (stripChars s.data)) <;> simp [hL, hp]
  | some c =>
      by_cases hc : isCompass c = true
      · cases hp : parseFloat? (replaceCommas (stripChars s.data)).dropLast with
        | none => simp [hL, hc, hp]
        | some q => simp [hL, hc, hp]
      · cases hp : parseFloat? (replaceCommas (stripChars s.data)) <;>
          simp [hL, hc, hp]

/-! Validator lemmas: issue indexes track row positions. -/

theorem validateRow_index (cfg : ValidatorConfig) (j : ℕ) (row : Record) :
    ∀ x ∈ validateRow cfg j row, x.index = j := by
  intro x hx
  rw [validateRow] at hx
  split at hx
  · simp at hx
    simp [hx]
  · simp only [List.mem_append] at hx
    rcases hx with (hx | hx) | hx
    · split at hx <;> simp at hx <;> simp [hx]
    · split at hx <;> simp at hx <;> simp [hx]
    · rcases hpc : cfg.precision with _ | p <;> rw [hpc] at hx
      · simp at hx
      · split at hx <;> simp at hx <;> simp [hx]

theorem validateFrom_index_ge (cfg : ValidatorConfig) (rows : List Record) (k : ℕ) :
    ∀ x ∈ validateFrom cfg k rows, k ≤ x.index := by
  induction rows generalizing k with
  | nil => simp [validateFrom]
  | cons r rest ih =>
      intro x hx
      rw [validateFrom] at hx
      rcases List.mem_append.mp hx with h | h
      · exact le_of_eq (validateRow_index cfg k r x h).symm
      · exact le_trans (Nat.le_succ k) (ih (k + 1) x h)

theorem validateFrom_filter (cfg : ValidatorConfig) (rows : List Record) (k i : ℕ)
    (row : Record) (hk : k ≤ i) (hrow : rows.get? (i - k) = some row) :
    (validateFrom cfg k rows).filter (fun x => x.index == i) =
      (validateRow cfg i row).filter (fun x => x.index == i) := by
  induction rows generalizing k with
  | nil => simp at hrow
  | cons r rest ih =>
      rw [validateFrom, List.filter_append]
      by_cases hik : i = k
      · subst hik
        have h0 : i - i = 0 := by omega
        rw [h0] at hrow
        simp at hrow
        subst hrow
        have hrest : (validateFrom cfg (i + 1) rest).filter (fun x => x.index == i) = [] := by
          rw [List.filter_eq_nil_iff]
          intro x hx
          have := validateFrom_index_ge cfg rest (i + 1) x hx
          simp
          omega
        rw [hrest, List.append_nil]
      · have hk1 : k + 1 ≤ i := by omega
        have hrow1 : rest.get? (i - (k + 1)) = some row := by
          have hd : i - k = (i - (k + 1)) + 1 := by omega
          rw [hd] at hrow
          simpa using hrow
        rw [ih (k + 1) hk1 hrow1]
        have hhead : (validateRow cfg k r).filter (fun x => x.index == i) = [] := by
          rw [List.filter_eq_nil_iff]
          intro x hx
          have := validateRow_index cfg k r x hx
          simp
          omega
        rw [hhead, List.nil_append]

/-- C5: a record with a null or absent coordinate field contributes exactly
one issue, at its own index, on the synthetic coordinates field with the
missing message; no bounds or precision issue is produced for that record. -/
theorem validate_missing_single_issue (cfg : ValidatorConfig) (rows : List Record)
    (i : ℕ) (row : Record) (hrow : rows.get? i = some row)
    (hm : dictGet row cfg.lat_field = Value.none ∨ dictGet row cfg.lon_field = Value.none) :
    (validate cfg rows).filter (fun x => x.index == i) =
      [⟨i, "coordinates", "Missing latitude or longitude"⟩] := by
  rw [validate, validateFrom_filter cfg rows 0 i row (Nat.zero_le i) (by simpa using hrow)]
  rw [validateRow]
  simp [hm]

/-- Witness for C5 at a concrete batch: the second record misses both fields
and yields exactly the one missing issue at index one. -/
theorem validate_missing_single_issue_witness :
    (validate defaultValidator [[("lat", Value.num 1), ("lon", Value.num 2)], []]).filter
        (fun x => x.index == 1) =
      [⟨1, "coordinates", "Missing latitude or longitude"⟩] :=
  validate_missing_single_issue defaultValidator
    [[("lat", Value.num 1), ("lon", Value.num 2)], []] 1 [] (by decide) (Or.inl (by decide))

theorem mem_validate_iff_of_index (cfg : ValidatorConfig) (rows : List Record) (i : ℕ)
    (row : Record) (hrow : rows.get? i = some row) (x : ValidationIssue) (hxi : x.index = i) :
    x ∈ validate cfg rows ↔ x ∈ validateRow cfg i row := by
  have hf := validateFrom_filter cfg rows 0 i row (Nat.zero_le i) (by simpa using hrow)
  constructor
  · intro h
    have hmem : x ∈ (validateFrom cfg 0 rows).filter (fun y => y.index == i) :=
      List.mem_filter.mpr ⟨h, by simp [hxi]⟩
    rw [hf] at hmem
    exact List.mem_of_mem_filter hmem
  · intro h
    have hmem : x ∈ (validateRow cfg i row).filter (fun y => y.index == i) :=
      List.mem_filter.mpr ⟨h, by simp [hxi]⟩
    rw [← hf] at hmem
    exact List.mem_of_mem_filter hmem

/-- C6 (amended): in a record whose both coordinate fields are non-null, an
unparseable value yields the bounds issue for its field, and never the
missing coordinates issue; validation is total, so the rest of the batch is
still scanned. -/
theorem validate_unparseable_bounds_issue (cfg : ValidatorConfig) (rows : List Record)
    (i : ℕ) (row : Record) (hrow : rows.get? i = some row)
    (hlat : dictGet row cfg.lat_field ≠ Value.none)
    (hlon : dictGet row cfg.lon_field ≠ Value.none) :
    (toFloat? (dictGet row cfg.lat_field) = Option.none →
      (⟨i, cfg.lat_field, "Latitude outside bounds"⟩ : ValidationIssue) ∈ validate cfg rows) ∧
    (toFloat? (dictGet row cfg.lon_field) = Option.none →
      (⟨i, cfg.lon_field, "Longitude outside bounds"⟩ : ValidationIssue) ∈ validate cfg rows) ∧
    (⟨i, "coordinates", "Missing latitude or longitude"⟩ : ValidationIssue) ∉
      validate cfg rows := by
  have hm : ¬(dictGet row cfg.lat_field = Value.none ∨ dictGet row cfg.lon_field = Value.none) := by
    intro h
    rcases h with h | h
    · exact hlat h
    · exact hlon h
  refine ⟨?_, ?_, ?_⟩
  · intro hun
    rw [mem_validate_iff_of_index cfg rows i row hrow _ rfl, validateRow]
    have hw : withinRange (dictGet row cfg.lat_field) (-90) 90 = false := by
      rw [withinRange, hun]
    simp [hm, hw]
  · intro hun
    rw [mem_validate_iff_of_index cfg rows i row hrow _ rfl, validateRow]
    have hw : withinRange (dictGet row cfg.lon_field) (-180) 180 = false := by
      rw [withinRange, hun]
    simp [hm, hw]
  · intro hmem
    rw [mem_validate_iff_of_index cfg rows i row hrow _ rfl, validateRow] at hmem
    rw [if_neg hm] at hmem
    rcases List.mem_append.mp hmem with hx | hx
    · rcases List.mem_append.mp hx with hy | hy
      · split at hy <;> simp at hy
      · split at hy <;> simp at hy
    · rcases hpc : cfg.precision with _ | p <;> rw [hpc] at hx
      · simp at hx
      · split at hx <;> simp at hx

/-- Witness for C6 at a concrete batch: text that parses as no number in the
latitude slot of a fully populated record yields the latitude bounds issue
and no missing issue. -/
theorem validate_unparseable_bounds_issue_witness :
    (⟨0, "lat", "Latitude outside bounds"⟩ : ValidationIssue) ∈
        validate defaultValidator [[("lat", Value.str "abc"), ("lon", Value.num 10)]] ∧
      (⟨0, "coordinates", "Missing latitude or longitude"⟩ : ValidationIssue) ∉
        validate defaultValidator [[("lat", Value.str "abc"), ("lon", Value.num 10)]] := by
  have h := validate_unparseable_bounds_issue defaultValidator
    [[("lat", Value.str "abc"), ("lon", Value.num 10)]] 0
    [("lat", Value.str "abc"), ("lon", Value.num 10)] (by decide) (by decide) (by decide)
  exact ⟨h.1 (by decide), h.2.2⟩

/-- Counterexample to C6 as stated: with the longitude field absent, the
unparseable latitude text produces the missing coordinates issue and no
bounds issue at all. -/
theorem validate_unparseable_missing_partner_counterexample :
    validate defaultValidator [[("lat", Value.str "abc")]] =
        [⟨0, "coordinates", "Missing latitude or longitude"⟩] ∧
      (⟨0, "lat", "Latitude outside bounds"⟩ : ValidationIssue) ∉
        validate defaultValidator [[("lat", Value.str "abc")]] := by
  decide

/-! Stage-level lemmas for the repair chain. -/

theorem swapStage_not (cfg : FixerConfig) (lat0 lon0 : Value) (s : ChainState)
    (h : looksSwapped s.lat s.lon = false) : swapStage cfg lat0 lon0 s = s := by
  simp [swapStage, h]

theorem swapStage_yes (cfg : FixerConfig) (lat0 lon0 : Value) (s : ChainState)
    (h : looksSwapped s.lat s.lon = true) :
    swapStage cfg lat0 lon0 s =
      ⟨s.lon, s.lat, s.fixes ++ ["swapped_axes"],
        alSet (alSet s.changes cfg.lat_field (lat0, Value.num s.lon))
          cfg.lon_field (lon0, Value.num s.lat)⟩ := by
  simp [swapStage, h]

theorem wrapStage_not (cfg : FixerConfig) (s : ChainState)
    (h : (wrapLongitude s.lon).2 = false) : wrapStage cfg s = s := by
  simp [wrapStage, h, wrapLongitude_not_wrapped s.lon h]

theorem wrapStage_yes (cfg : FixerConfig) (s : ChainState)
    (h : (wrapLongitude s.lon).2 = true) :
    wrapStage cfg s =
      ⟨s.lat, (wrapLongitude s.lon).1, s.fixes ++ ["lon_wrapped"],
        alSet s.changes cfg.lon_field (Value.num s.lon, Value.num (wrapLongitude s.lon).1)⟩ := by
  simp [wrapStage, h]

theorem handleOutlier_not (m : Option ℚ) (v f : ℚ) (h : (handleOutlier m v f).2 = false) :
    (handleOutlier m v f).1 = v := by
  rcases m with _ | m
  · simp [handleOutlier]
  · rw [handleOutlier] at *
    by_cases hm : m < |v|
    · simp [hm] at h
    · simp [hm]

theorem outlierStage_none (cfg : FixerConfig) (lat0 lon0 : Value) (s : ChainState)
    (h : cfg.max_abs = Option.none) : outlierStage cfg lat0 lon0 s = s := by
  simp [outlierStage, handleOutlier, h]

theorem clipStage_false (cfg : FixerConfig) (s : ChainState) (h : cfg.clip = false) :
    clipStage cfg s = s := by
  simp [clipStage, h]

theorem clipStage_noop (cfg : FixerConfig) (s : ChainState)
    (h1 : -90 ≤ s.lat ∧ s.lat ≤ 90) (h2 : -180 ≤ s.lon ∧ s.lon ≤ 180) :
    clipStage cfg s = s := by
  rw [clipStage]
  by_cases hc : cfg.clip = true
  · simp [hc, clipValue_of_mem s.lat (-90) 90 h1.1 h1.2,
      clipValue_of_mem s.lon (-180) 180 h2.1 h2.2]
  · simp [hc]

theorem clipStage_bounds (cfg : FixerConfig) (s : ChainState) (h : cfg.clip = true) :
    -90 ≤ (clipStage cfg s).lat ∧ (clipStage cfg s).lat ≤ 90 ∧
    -180 ≤ (clipStage cfg s).lon ∧ (clipStage cfg s).lon ≤ 180 := by
  rw [clipStage]
  simp only [h, if_true]
  refine ⟨?_, ?_, ?_, ?_⟩
  · exact clipValue_lower s.lat (-90) 90 (by norm_num)
  · exact clipValue_upper s.lat (-90) 90
  · exact clipValue_lower s.lon (-180) 180 (by norm_num)
  · exact clipValue_upper s.lon (-180) 180

/-! Reduction lemmas for the coercion and fill steps. -/

theorem coerceStage_spec (cfg : FixerConfig) (lat0 lon0 : Value) :
    coerceStage cfg lat0 lon0 =
      (((coerceValue lat0).1, (coerceValue lon0).1),
        (coerceValue lat0).2.1 ++ (coerceValue lon0).2.1,
        if (coerceValue lon0).2.2 = true then
          alSet (if (coerceValue lat0).2.2 = true then
              alSet ([] : Changes) cfg.lat_field (lat0, optToValue (coerceValue lat0).1)
            else []) cfg.lon_field (lon0, optToValue (coerceValue lon0).1)
        else if (coerceValue lat0).2.2 = true then
          alSet ([] : Changes) cfg.lat_field (lat0, optToValue (coerceValue lat0).1)
        else []) := rfl

theorem fillStage_some_some (cfg : FixerConfig) (a b : Value) (la lo : ℚ)
    (fx : List String) (ch : Changes) :
    fillStage cfg a b (some la) (some lo) fx ch = ⟨la, lo, fx, ch⟩ := rfl

theorem fillStage_none_some (cfg : FixerConfig) (a b : Value) (lo : ℚ)
    (fx : List String) (ch : Changes) :
    fillStage cfg a b Option.none (some lo) fx ch =
      ⟨cfg.fallback.1, lo, fx ++ ["lat_filled"],
        alSet ch cfg.lat_field (a, Value.num cfg.fallback.1)⟩ := rfl

theorem fillStage_some_none (cfg : FixerConfig) (a b : Value) (la : ℚ)
    (fx : List String) (ch : Changes) :
    fillStage cfg a b (some la) Option.none fx ch =
      ⟨la, cfg.fallback.2, fx ++ ["lon_filled"],
        alSet ch cfg.lon_field (b, Value.num cfg.fallback.2)⟩ := rfl

theorem coerceValue_none_not_changed (v : Value) (h : (coerceValue v).1 = Option.none) :
    (coerceValue v).2.2 = false := by
  rcases v with _ | q | s
  · rfl
  · simp [coerceValue] at h
  · rw [coerceValue] at *
    cases hL : (replaceCommas (stripChars s.data)).getLast? with
    | none =>
        cases hp : parseFloat? (replaceCommas (stripChars s.data)) <;> simp [hL, hp] at h ⊢
    | some c =>
        by_cases hc : isCompass c = true
        · cases hp : parseFloat? (replaceCommas (stripChars s.data)).dropLast with
          | none => simp [hL, hc, hp] at h ⊢
          | some q => simp [hL, hc, hp] at h
        · cases hp : parseFloat? (replaceCommas (stripChars s.data)) <;>
            simp [hL, hc, hp] at h ⊢

theorem coerceValue_notes_cases (v : Value) :
    (coerceValue v).2.1 = [] ∨ (coerceValue v).2.1 = ["coerced_from_string"] ∨
      (coerceValue v).2.1 = ["coerced_from_string", "coerce_failed"] := by
  rcases v with _ | q | s
  · left; rfl
  · left; rfl
  · rw [coerceValue]
    cases hL : (replaceCommas (stripChars s.data)).getLast? with
    | none =>
        cases hp : parseFloat? (replaceCommas (stripChars s.data)) <;> simp [hL, hp]
    | some c =>
        by_cases hc : isCompass c = true
        · cases hp : parseFloat? (replaceCommas (stripChars s.data)).dropLast with
          | none => simp [hL, hc, hp]
          | some q => simp [hL, hc, hp]
        · cases hp : parseFloat? (replaceCommas (stripChars s.data)) <;> simp [hL, hc, hp]

theorem coerceValue_note_mem (v : Value) :
    ∀ x ∈ (coerceValue v).2.1, x = "coerced_from_string" ∨ x = "coerce_failed" := by
  intro x hx
  rcases coerceValue_notes_cases v with h | h | h <;> rw [h] at hx <;> simp at hx
  · exact Or.inl hx
  · exact hx

/-- C9: on a record whose coordinate fields hold native in-range numbers, the
default fixer is the identity: same record back, no fix codes, no changes. -/
theorem fixRecord_default_identity (r : Record) (la lo : ℚ)
    (hla : alFind r "lat" = some (Value.num la))
    (hlo : alFind r "lon" = some (Value.num lo))
    (h1 : -90 ≤ la) (h2 : la ≤ 90) (h3 : -180 ≤ lo) (h4 : lo ≤ 180) :
    fixRecord defaultFixer r = ⟨r, [], []⟩ := by
  have hgla : dictGet r "lat" = Value.num la := by simp [dictGet, hla]
  have hglo : dictGet r "lon" = Value.num lo := by simp [dictGet, hlo]
  have habs : |la| ≤ 90 := abs_le.mpr ⟨h1, h2⟩
  have hs : looksSwapped la lo = false := by
    simp [looksSwapped]
    intro hcon
    linarith
  have hw : wrapLongitude lo = (lo, false) := wrapLongitude_of_inRange lo ⟨h3, h4⟩
  have hset1 : dictSet r "lat" (Value.num la) = r := alSet_of_find r "lat" _ hla
  have hset2 : dictSet r "lon" (Value.num lo) = r := alSet_of_find r "lon" _ hlo
  have hlatf : defaultFixer.lat_field = "lat" := rfl
  have hlonf : defaultFixer.lon_field = "lon" := rfl
  rw [fixRecord, coerceStage_spec, hlatf, hlonf, hgla, hglo]
  simp only [coerceValue]
  simp only [Option.some_ne_none, false_and, if_false, if_true, List.append_nil, ite_false,
    ite_true, Bool.false_eq_true]
  rw [fillStage_some_some]
  rw [swapStage_not defaultFixer _ _ _ (by simpa using hs)]
  rw [wrapStage_not defaultFixer _ (by simp [hw])]
  rw [outlierStage_none defaultFixer _ _ _ rfl]
  rw [clipStage_noop defaultFixer _ (by constructor <;> simpa) (by constructor <;> simpa)]
  simp only [hlatf, hlonf]
  rw [hset1, hset2]

unseal Rat.add Rat.mul Rat.sub Rat.inv in
/-- Witness for C9 at a concrete in-range record. -/
theorem fixRecord_default_identity_witness :
    fixRecord defaultFixer [("lat", Value.num 10), ("lon", Value.num 20)] =
      ⟨[("lat", Value.num 10), ("lon", Value.num 20)], [], []⟩ :=
  fixRecord_default_identity [("lat", Value.num 10), ("lon", Value.num 20)] 10 20
    (by decide) (by decide) (by decide) (by decide) (by decide) (by decide)

/-- C4 (amended): with no outlier ceiling configured, a swapped-looking pair
is exchanged: the output latitude is the coerced input longitude, the output
longitude is the coerced input latitude, and swapped_axes is recorded. -/
theorem fixRecord_swaps_axes (cfg : FixerConfig) (r : Record) (la lo : ℚ)
    (hd : cfg.lat_field ≠ cfg.lon_field)
    (hma : cfg.max_abs = Option.none)
    (hla : (coerceValue (dictGet r cfg.lat_field)).1 = some la)
    (hlo : (coerceValue (dictGet r cfg.lon_field)).1 = some lo)
    (hb1 : 90 < |la|) (hb2 : |la| ≤ 180) (hb3 : |lo| ≤ 90) :
    dictGet (fixRecord cfg r).record cfg.lat_field = Value.num lo ∧
    dictGet (fixRecord cfg r).record cfg.lon_field = Value.num la ∧
    "swapped_axes" ∈ (fixRecord cfg r).fixes := by
  have hs : looksSwapped la lo = true := by
    simp [looksSwapped]
    exact ⟨⟨hb1, hb2⟩, hb3⟩
  have hw : wrapLongitude la = (la, false) := wrapLongitude_of_inRange la (abs_le.mp hb2)
  rw [fixRecord, coerceStage_spec, hla, hlo]
  simp only [Option.some_ne_none, false_and, if_false, ite_false]
  rw [fillStage_some_some]
  rw [swapStage_yes _ _ _ _ (by simpa using hs)]
  rw [wrapStage_not _ _ (by simp [hw])]
  rw [outlierStage_none _ _ _ _ hma]
  rw [clipStage_noop _ _ (by simpa using abs_le.mp hb3) (by simpa using abs_le.mp hb2)]
  refine ⟨?_, ?_, ?_⟩
  · rw [dictGet_dictSet_ne _ _ _ _ hd]
    rw [dictGet_dictSet_self]
  · rw [dictGet_dictSet_self]
  · simp

unseal Rat.add Rat.mul Rat.sub Rat.inv in
/-- Witness for C4 at the concrete swapped pair from the test suite. -/
theorem fixRecord_swaps_axes_witness :
    dictGet (fixRecord defaultFixer
        [("lat", Value.num 100), ("lon", Value.num 25)]).record "lat" = Value.num 25 ∧
    dictGet (fixRecord defaultFixer
        [("lat", Value.num 100), ("lon", Value.num 25)]).record "lon" = Value.num 100 ∧
    "swapped_axes" ∈ (fixRecord defaultFixer
        [("lat", Value.num 100), ("lon", Value.num 25)]).fixes :=
  fixRecord_swaps_axes defaultFixer [("lat", Value.num 100), ("lon", Value.num 25)] 100 25
    (by decide) rfl (by decide) (by decide) (by decide) (by decide) (by decide)

unseal Rat.add Rat.mul Rat.sub Rat.inv in
/-- Counterexample to C4 as stated: an outlier ceiling of fifty undoes the
swap result on the longitude side, so the output longitude is the fallback
zero instead of the input latitude one hundred. -/
theorem fixRecord_swaps_axes_maxabs_counterexample :
    (90 : ℚ) < |(100 : ℚ)| ∧ |(100 : ℚ)| ≤ 180 ∧ |(25 : ℚ)| ≤ 90 ∧
    "swapped_axes" ∈ (fixRecord { defaultFixer with max_abs := some 50 }
        [("lat", Value.num 100), ("lon", Value.num 25)]).fixes ∧
    dictGet (fixRecord { defaultFixer with max_abs := some 50 }
        [("lat", Value.num 100), ("lon", Value.num 25)]).record "lon" = Value.num 0 ∧
    Value.num 0 ≠ Value.num 100 := by
  decide

/-- C3 (amended): when both sides coerce to null, the pair is replaced by the
fallback, filled_missing is recorded, the fix list holds nothing beyond the
coercion notes and filled_missing (no later chain step runs), and the result
is valid by the same-field validator whenever the fallback is in bounds. -/
theorem fixRecord_both_missing (cfg : FixerConfig) (r : Record)
    (hd : cfg.lat_field ≠ cfg.lon_field)
    (hfb1 : |cfg.fallback.1| ≤ 90) (hfb2 : |cfg.fallback.2| ≤ 180)
    (hcl : (coerceValue (dictGet r cfg.lat_field)).1 = Option.none)
    (hcn : (coerceValue (dictGet r cfg.lon_field)).1 = Option.none) :
    dictGet (fixRecord cfg r).record cfg.lat_field = Value.num cfg.fallback.1 ∧
    dictGet (fixRecord cfg r).record cfg.lon_field = Value.num cfg.fallback.2 ∧
    (fixRecord cfg r).fixes =
      ((coerceValue (dictGet r cfg.lat_field)).2.1 ++
        (coerceValue (dictGet r cfg.lon_field)).2.1) ++ ["filled_missing"] ∧
    "filled_missing" ∈ (fixRecord cfg r).fixes ∧
    (∀ x ∈ (fixRecord cfg r).fixes,
      x = "coerced_from_string" ∨ x = "coerce_failed" ∨ x = "filled_missing") ∧
    validate ⟨cfg.lat_field, cfg.lon_field, Option.none⟩ [(fixRecord cfg r).record] = [] := by
  have hbl := coerceValue_none_not_changed _ hcl
  have hbn := coerceValue_none_not_changed _ hcn
  have hred : fixRecord cfg r =
      { record := dictSet (dictSet r cfg.lat_field (Value.num cfg.fallback.1))
          cfg.lon_field (Value.num cfg.fallback.2),
        fixes := ((coerceValue (dictGet r cfg.lat_field)).2.1 ++
          (coerceValue (dictGet r cfg.lon_field)).2.1) ++ ["filled_missing"],
        changes := alSet (alSet ([] : Changes) cfg.lat_field
            (dictGet r cfg.lat_field, Value.num cfg.fallback.1))
          cfg.lon_field (dictGet r cfg.lon_field, Value.num cfg.fallback.2) } := by
    rw [fixRecord, coerceStage_spec, hcl, hcn, hbl, hbn]
    simp
  rw [hred]
  have hg1 : dictGet (dictSet (dictSet r cfg.lat_field (Value.num cfg.fallback.1))
      cfg.lon_field (Value.num cfg.fallback.2)) cfg.lat_field = Value.num cfg.fallback.1 := by
    rw [dictGet_dictSet_ne _ _ _ _ hd, dictGet_dictSet_self]
  have hg2 : dictGet (dictSet (dictSet r cfg.lat_field (Value.num cfg.fallback.1))
      cfg.lon_field (Value.num cfg.fallback.2)) cfg.lon_field = Value.num cfg.fallback.2 := by
    rw [dictGet_dictSet_self]
  refine ⟨hg1, hg2, rfl, by simp, ?_, ?_⟩
  · intro x hx
    rcases List.mem_append.mp hx with hy | hy
    · rcases List.mem_append.mp hy with hz | hz
      · rcases coerceValue_note_mem _ x hz with h | h
        · exact Or.inl h
        · exact Or.inr (Or.inl h)
      · rcases coerceValue_note_mem _ x hz with h | h
        · exact Or.inl h
        · exact Or.inr (Or.inl h)
    · simp at hy
      exact Or.inr (Or.inr hy)
  · have hr1 := abs_le.mp hfb1
    have hr2 := abs_le.mp hfb2
    simp [validate, validateFrom, validateRow, hg1, hg2, withinRange, toFloat?,
      hr1.1, hr1.2, hr2.1, hr2.2]

unseal Rat.add Rat.mul Rat.sub Rat.inv in
/-- Witness for C3: one side null and the other absent, with the fallback
pair one-two, as in the test suite. -/
theorem fixRecord_both_missing_witness :
    dictGet (fixRecord { defaultFixer with fallback := (1, 2) }
        [("lat", Value.none)]).record "lat" = Value.num 1 ∧
    dictGet (fixRecord { defaultFixer with fallback := (1, 2) }
        [("lat", Value.none)]).record "lon" = Value.num 2 ∧
    "filled_missing" ∈ (fixRecord { defaultFixer with fallback := (1, 2) }
        [("lat", Value.none)]).fixes ∧
    validate ⟨"lat", "lon", Option.none⟩
      [(fixRecord { defaultFixer with fallback := (1, 2) } [("lat", Value.none)]).record] = [] := by
  have h := fixRecord_both_missing { defaultFixer with fallback := (1, 2) }
    [("lat", Value.none)] (by decide) (by decide) (by decide) rfl rfl
  exact ⟨h.1, h.2.1, h.2.2.2.1, h.2.2.2.2.2⟩

unseal Rat.add Rat.mul Rat.sub Rat.inv in
/-- Counterexample to C3 as stated: an out-of-bounds fallback is installed by
the early return without clipping, so the result is not valid by the default
validator even though filled_missing fired. -/
theorem fixRecord_both_missing_invalid_fallback_counterexample :
    "filled_missing" ∈ (fixRecord { defaultFixer with fallback := (91, 0) } []).fixes ∧
    validate defaultValidator [(fixRecord { defaultFixer with fallback := (91, 0) } []).record] =
      [⟨0, "lat", "Latitude outside bounds"⟩] := by
  decide

/-- C1 (amended): with clipping enabled, distinct field names, and an
in-bounds fallback pair, every record comes back with numeric coordinates in
canonical bounds. -/
theorem fixRecord_clip_in_bounds (cfg : FixerConfig) (r : Record)
    (hclip : cfg.clip = true) (hd : cfg.lat_field ≠ cfg.lon_field)
    (hfb1 : |cfg.fallback.1| ≤ 90) (hfb2 : |cfg.fallback.2| ≤ 180) :
    ∃ la lo : ℚ, dictGet (fixRecord cfg r).record cfg.lat_field = Value.num la ∧
      dictGet (fixRecord cfg r).record cfg.lon_field = Value.num lo ∧
      -90 ≤ la ∧ la ≤ 90 ∧ -180 ≤ lo ∧ lo ≤ 180 := by
  simp only [fixRecord]
  by_cases hE : (coerceStage cfg (dictGet r cfg.lat_field) (dictGet r cfg.lon_field)).1.1 =
      Option.none ∧
      (coerceStage cfg (dictGet r cfg.lat_field) (dictGet r cfg.lon_field)).1.2 = Option.none
  · rw [if_pos hE]
    refine ⟨cfg.fallback.1, cfg.fallback.2, ?_, ?_, ?_, ?_, ?_, ?_⟩
    · rw [dictGet_dictSet_ne _ _ _ _ hd, dictGet_dictSet_self]
    · rw [dictGet_dictSet_self]
    · exact (abs_le.mp hfb1).1
    · exact (abs_le.mp hfb1).2
    · exact (abs_le.mp hfb2).1
    · exact (abs_le.mp hfb2).2
  · rw [if_neg hE]
    have hb := clipStage_bounds cfg (outlierStage cfg (dictGet r cfg.lat_field)
      (dictGet r cfg.lon_field) (wrapStage cfg (swapStage cfg (dictGet r cfg.lat_field)
        (dictGet r cfg.lon_field) (fillStage cfg (dictGet r cfg.lat_field)
          (dictGet r cfg.lon_field)
          (coerceStage cfg (dictGet r cfg.lat_field) (dictGet r cfg.lon_field)).1.1
          (coerceStage cfg (dictGet r cfg.lat_field) (dictGet r cfg.lon_field)).1.2
          (coerceStage cfg (dictGet r cfg.lat_field) (dictGet r cfg.lon_field)).2.1
          (coerceStage cfg (dictGet r cfg.lat_field) (dictGet r cfg.lon_field)).2.2)))) hclip
    refine ⟨_, _, ?_, ?_, hb.1, hb.2.1, hb.2.2.1, hb.2.2.2⟩
    · rw [dictGet_dictSet_ne _ _ _ _ hd, dictGet_dictSet_self]
    · rw [dictGet_dictSet_self]

unseal Rat.add Rat.mul Rat.sub Rat.inv in
/-- Witness for C1 at a concrete record with a huge textual latitude and a
null longitude under the default configuration. -/
theorem fixRecord_clip_in_bounds_witness :
    ∃ la lo : ℚ,
      dictGet (fixRecord defaultFixer
          [("lat", Value.str "9000"), ("lon", Value.none)]).record "lat" = Value.num la ∧
      dictGet (fixRecord defaultFixer
          [("lat", Value.str "9000"), ("lon", Value.none)]).record "lon" = Value.num lo ∧
      -90 ≤ la ∧ la ≤ 90 ∧ -180 ≤ lo ∧ lo ≤ 180 :=
  fixRecord_clip_in_bounds defaultFixer [("lat", Value.str "9000"), ("lon", Value.none)]
    rfl (by decide) (by decide) (by decide)

unseal Rat.add Rat.mul Rat.sub Rat.inv in
/-- Counterexample to C1 as stated: both coordinates missing take the early
fallback return that skips clipping, so an out-of-bounds fallback leaks an
out-of-range latitude even with clip enabled. -/
theorem fixRecord_clip_missing_fallback_counterexample :
    ({ defaultFixer with fallback := (1000, 1000) } : FixerConfig).clip = true ∧
    dictGet (fixRecord { defaultFixer with fallback := (1000, 1000) } []).record "lat" =
      Value.num 1000 ∧
    ¬((1000 : ℚ) ≤ 90) := by
  decide

/-! Key uniqueness of the changes map. -/

theorem coerceStage_nodup (cfg : FixerConfig) (a b : Value) :
    nodupKeys (coerceStage cfg a b).2.2 := by
  rw [coerceStage_spec]
  exact nodupKeys_ite _ _ _ _ (nodupKeys_ite _ _ _ _ nodupKeys_nil)

theorem fillStage_nodup (cfg : FixerConfig) (a b : Value) (latOpt lonOpt : Option ℚ)
    (fx : List String) (ch : Changes) (h : nodupKeys ch) :
    nodupKeys (fillStage cfg a b latOpt lonOpt fx ch).changes := by
  rcases latOpt with _ | ql <;> rcases lonOpt with _ | qn <;>
    simp only [fillStage] <;>
    first
      | exact h
      | exact nodupKeys_alSet _ _ _ h
      | exact nodupKeys_alSet _ _ _ (nodupKeys_alSet _ _ _ h)

theorem swapStage_nodup (cfg : FixerConfig) (a b : Value) (s : ChainState)
    (h : nodupKeys s.changes) : nodupKeys (swapStage cfg a b s).changes := by
  by_cases hs : looksSwapped s.lat s.lon = true
  · rw [swapStage_yes _ _ _ _ hs]
    exact nodupKeys_alSet _ _ _ (nodupKeys_alSet _ _ _ h)
  · rw [swapStage_not _ _ _ _ (by simpa using hs)]
    exact h

theorem wrapStage_nodup (cfg : FixerConfig) (s : ChainState)
    (h : nodupKeys s.changes) : nodupKeys (wrapStage cfg s).changes := by
  by_cases hw : (wrapLongitude s.lon).2 = true
  · rw [wrapStage_yes _ _ hw]
    exact nodupKeys_alSet _ _ _ h
  · rw [wrapStage_not _ _ (by simpa using hw)]
    exact h

theorem outlierStage_nodup (cfg : FixerConfig) (a b : Value) (s : ChainState)
    (h : nodupKeys s.changes) : nodupKeys (outlierStage cfg a b s).changes := by
  simp only [outlierStage]
  exact nodupKeys_ite _ _ _ _ (nodupKeys_ite _ _ _ _ h)

theorem clipStage_nodup (cfg : FixerConfig) (s : ChainState)
    (h : nodupKeys s.changes) : nodupKeys (clipStage cfg s).changes := by
  by_cases hc : cfg.clip = true
  · simp only [clipStage, hc, if_true]
    exact nodupKeys_ite _ _ _ _ (nodupKeys_ite _ _ _ _ h)
  · rw [clipStage_false _ _ (by simpa using hc)]
    exact h

/-- C10: the changes map of every fix result has at most one entry per field
name, and writing a field into a changes map overwrites: the pair read back
is the one written last. -/
theorem fixRecord_changes_at_most_one_entry :
    (∀ (cfg : FixerConfig) (r : Record), nodupKeys (fixRecord cfg r).changes) ∧
    (∀ (c : Changes) (k : String) (v : Value × Value), alFind (alSet c k v) k = some v) := by
  constructor
  · intro cfg r
    simp only [fixRecord]
    by_cases hE : (coerceStage cfg (dictGet r cfg.lat_field) (dictGet r cfg.lon_field)).1.1 =
        Option.none ∧
        (coerceStage cfg (dictGet r cfg.lat_field) (dictGet r cfg.lon_field)).1.2 = Option.none
    · rw [if_pos hE]
      exact nodupKeys_alSet _ _ _ (nodupKeys_alSet _ _ _ (coerceStage_nodup cfg _ _))
    · rw [if_neg hE]
      exact clipStage_nodup _ _ (outlierStage_nodup _ _ _ _ (wrapStage_nodup _ _
        (swapStage_nodup _ _ _ _ (fillStage_nodup _ _ _ _ _ _ _ (coerceStage_nodup cfg _ _)))))
  · intro c k v
    exact alFind_alSet_self c k v

/-! Audit-trail invariant of the changes map along the chain. -/


/-- Value of numeric or null shape: no textual coordinate. -/
def numOrNull (v : Value) : Prop := v = Value.none ∨ ∃ q : ℚ, v = Value.num q

/-- Invariant of the changes map along the chain: entries exist only for the
coordinate fields, the first component is the original record value, the
second the current chain value of that field. -/
def changesOk (cfg : FixerConfig) (r : Record) (s : ChainState) : Prop :=
  (∀ k, k ≠ cfg.lat_field → k ≠ cfg.lon_field → alFind s.changes k = Option.none) ∧
  (∀ pr, alFind s.changes cfg.lat_field = some pr →
      pr.1 = dictGet r cfg.lat_field ∧ pr.2 = Value.num s.lat) ∧
  (∀ pr, alFind s.changes cfg.lon_field = some pr →
      pr.1 = dictGet r cfg.lon_field ∧ pr.2 = Value.num s.lon)

/-- Current latitude is either still the original record number or already
within latitude bounds. -/
def latProv (cfg : FixerConfig) (r : Record) (s : ChainState) : Prop :=
  dictGet r cfg.lat_field = Value.num s.lat ∨ (-90 ≤ s.lat ∧ s.lat ≤ 90)

/-- Current longitude is either still the original record number or already
within longitude bounds. -/
def lonProv (cfg : FixerConfig) (r : Record) (s : ChainState) : Prop :=
  dictGet r cfg.lon_field = Value.num s.lon ∨ (-180 ≤ s.lon ∧ s.lon ≤ 180)

theorem looksSwapped_iff (a b : ℚ) :
    looksSwapped a b = true ↔ (90 < |a| ∧ |a| ≤ 180) ∧ |b| ≤ 90 := by
  simp [looksSwapped]

theorem handleOutlier_yes (m : Option ℚ) (v f : ℚ) (h : (handleOutlier m v f).2 = true) :
    (handleOutlier m v f).1 = f := by
  rcases m with _ | m
  · simp [handleOutlier] at h
  · rw [handleOutlier] at *
    by_cases hm : m < |v|
    · simp [hm]
    · simp [hm] at h

theorem changesOk_swapStage (cfg : FixerConfig) (r : Record) (a b : Value) (s : ChainState)
    (hd : cfg.lat_field ≠ cfg.lon_field)
    (ha : a = dictGet r cfg.lat_field) (hb : b = dictGet r cfg.lon_field)
    (h : changesOk cfg r s) : changesOk cfg r (swapStage cfg a b s) := by
  by_cases hs : looksSwapped s.lat s.lon = true
  · rw [swapStage_yes _ _ _ _ hs]
    refine ⟨?_, ?_, ?_⟩
    · intro k hk1 hk2
      rw [alFind_alSet_ne _ _ _ _ hk2, alFind_alSet_ne _ _ _ _ hk1]
      exact h.1 k hk1 hk2
    · intro pr hpr
      rw [alFind_alSet_ne _ _ _ _ hd, alFind_alSet_self] at hpr
      rcases Option.some_inj.mp hpr.symm with rfl
      exact ⟨ha, rfl⟩
    · intro pr hpr
      rw [alFind_alSet_self] at hpr
      rcases Option.some_inj.mp hpr.symm with rfl
      exact ⟨hb, rfl⟩
  · rw [swapStage_not _ _ _ _ (by simpa using hs)]
    exact h

theorem prov_swapStage (cfg : FixerConfig) (r : Record) (a b : Value) (s : ChainState)
    (hla : latProv cfg r s) (hlo : lonProv cfg r s) :
    latProv cfg r (swapStage cfg a b s) ∧ lonProv cfg r (swapStage cfg a b s) := by
  by_cases hs : looksSwapped s.lat s.lon = true
  · rw [swapStage_yes _ _ _ _ hs]
    obtain ⟨⟨hs1, hs2⟩, hs3⟩ := (looksSwapped_iff s.lat s.lon).mp hs
    constructor
    · right
      exact abs_le.mp hs3
    · right
      exact abs_le.mp hs2
  · rw [swapStage_not _ _ _ _ (by simpa using hs)]
    exact ⟨hla, hlo⟩

theorem changesOk_wrapStage (cfg : FixerConfig) (r : Record) (s : ChainState)
    (hd : cfg.lat_field ≠ cfg.lon_field)
    (hp : lonProv cfg r s) (h : changesOk cfg r s) : changesOk cfg r (wrapStage cfg s) := by
  by_cases hw : (wrapLongitude s.lon).2 = true
  · have horig : dictGet r cfg.lon_field = Value.num s.lon := by
      rcases hp with hp | hp
      · exact hp
      · exfalso
        rw [wrapLongitude_of_inRange s.lon hp] at hw
        simp at hw
    rw [wrapStage_yes _ _ hw]
    refine ⟨?_, ?_, ?_⟩
    · intro k hk1 hk2
      rw [alFind_alSet_ne _ _ _ _ hk2]
      exact h.1 k hk1 hk2
    · intro pr hpr
      rw [alFind_alSet_ne _ _ _ _ hd] at hpr
      exact h.2.1 pr hpr
    · intro pr hpr
      rw [alFind_alSet_self] at hpr
      rcases Option.some_inj.mp hpr.symm with rfl
      exact ⟨horig.symm, rfl⟩
  · rw [wrapStage_not _ _ (by simpa using hw)]
    exact h

theorem prov_wrapStage (cfg : FixerConfig) (r : Record) (s : ChainState)
    (hla : latProv cfg r s) (hlo : lonProv cfg r s) :
    latProv cfg r (wrapStage cfg s) ∧ lonProv cfg r (wrapStage cfg s) := by
  by_cases hw : (wrapLongitude s.lon).2 = true
  · rw [wrapStage_yes _ _ hw]
    refine ⟨hla, Or.inr ?_⟩
    exact wrapLongitude_wrapped_inRange s.lon hw
  · rw [wrapStage_not _ _ (by simpa using hw)]
    exact ⟨hla, hlo⟩



theorem changesOk_outlierStage (cfg : FixerConfig) (r : Record) (a b : Value) (s : ChainState)
    (hd : cfg.lat_field ≠ cfg.lon_field)
    (ha : a = dictGet r cfg.lat_field) (hb : b = dictGet r cfg.lon_field)
    (h : changesOk cfg r s) : changesOk cfg r (outlierStage cfg a b s) := by
  simp only [outlierStage]
  by_cases hlr : (handleOutlier cfg.max_abs s.lat cfg.fallback.1).2 = true <;>
    by_cases hnr : (handleOutlier cfg.max_abs s.lon cfg.fallback.2).2 = true
  · simp only [hlr, hnr, if_true]
    refine ⟨?_, ?_, ?_⟩
    · intro k hk1 hk2
      rw [alFind_alSet_ne _ _ _ _ hk2, alFind_alSet_ne _ _ _ _ hk1]
      exact h.1 k hk1 hk2
    · intro pr hpr
      rw [alFind_alSet_ne _ _ _ _ hd, alFind_alSet_self] at hpr
      rcases Option.some_inj.mp hpr.symm with rfl
      exact ⟨ha, rfl⟩
    · intro pr hpr
      rw [alFind_alSet_self] at hpr
      rcases Option.some_inj.mp hpr.symm with rfl
      exact ⟨hb, rfl⟩
  · have hnr' : (handleOutlier cfg.max_abs s.lon cfg.fallback.2).2 = false := by simpa using hnr
    simp only [hlr, hnr', if_true, Bool.false_eq_true, if_false]
    refine ⟨?_, ?_, ?_⟩
    · intro k hk1 hk2
      rw [alFind_alSet_ne _ _ _ _ hk1]
      exact h.1 k hk1 hk2
    · intro pr hpr
      rw [alFind_alSet_self] at hpr
      rcases Option.some_inj.mp hpr.symm with rfl
      exact ⟨ha, rfl⟩
    · intro pr hpr
      rw [alFind_alSet_ne _ _ _ _ (Ne.symm hd)] at hpr
      have hold := h.2.2 pr hpr
      rw [handleOutlier_not _ _ _ hnr']
      exact hold
  · have hlr' : (handleOutlier cfg.max_abs s.lat cfg.fallback.1).2 = false := by simpa using hlr
    simp only [hlr', hnr, if_true, Bool.false_eq_true, if_false]
    refine ⟨?_, ?_, ?_⟩
    · intro k hk1 hk2
      rw [alFind_alSet_ne _ _ _ _ hk2]
      exact h.1 k hk1 hk2
    · intro pr hpr
      rw [alFind_alSet_ne _ _ _ _ hd] at hpr
      have hold := h.2.1 pr hpr
      rw [handleOutlier_not _ _ _ hlr']
      exact hold
    · intro pr hpr
      rw [alFind_alSet_self] at hpr
      rcases Option.some_inj.mp hpr.symm with rfl
      exact ⟨hb, rfl⟩
  · have hlr' : (handleOutlier cfg.max_abs s.lat cfg.fallback.1).2 = false := by simpa using hlr
    have hnr' : (handleOutlier cfg.max_abs s.lon cfg.fallback.2).2 = false := by simpa using hnr
    simp only [hlr', hnr', Bool.false_eq_true, if_false]
    refine ⟨h.1, ?_, ?_⟩
    · intro pr hpr
      have hold := h.2.1 pr hpr
      rw [handleOutlier_not _ _ _ hlr']
      exact hold
    · intro pr hpr
      have hold := h.2.2 pr hpr
      rw [handleOutlier_not _ _ _ hnr']
      exact hold

theorem prov_outlierStage (cfg : FixerConfig) (r : Record) (a b : Value) (s : ChainState)
    (hfb1 : |cfg.fallback.1| ≤ 90) (hfb2 : |cfg.fallback.2| ≤ 180)
    (hla : latProv cfg r s) (hlo : lonProv cfg r s) :
    latProv cfg r (outlierStage cfg a b s) ∧ lonProv cfg r (outlierStage cfg a b s) := by
  simp only [outlierStage]
  constructor
  · by_cases hlr : (handleOutlier cfg.max_abs s.lat cfg.fallback.1).2 = true
    · rw [latProv]
      simp only [handleOutlier_yes _ _ _ hlr]
      exact Or.inr (abs_le.mp hfb1)
    · have hlr' : (handleOutlier cfg.max_abs s.lat cfg.fallback.1).2 = false := by simpa using hlr
      rw [latProv]
      simp only [handleOutlier_not _ _ _ hlr']
      exact hla
  · by_cases hnr : (handleOutlier cfg.max_abs s.lon cfg.fallback.2).2 = true
    · rw [lonProv]
      simp only [handleOutlier_yes _ _ _ hnr]
      exact Or.inr (abs_le.mp hfb2)
    · have hnr' : (handleOutlier cfg.max_abs s.lon cfg.fallback.2).2 = false := by simpa using hnr
      rw [lonProv]
      simp only [handleOutlier_not _ _ _ hnr']
      exact hlo

theorem changesOk_clipStage (cfg : FixerConfig) (r : Record) (s : ChainState)
    (hd : cfg.lat_field ≠ cfg.lon_field)
    (hplat : latProv cfg r s) (hplon : lonProv cfg r s)
    (h : changesOk cfg r s) : changesOk cfg r (clipStage cfg s) := by
  by_cases hc : cfg.clip = true
  · simp only [clipStage, hc, if_true]
    by_cases h1 : clipValue s.lat (-90) 90 ≠ s.lat <;>
      by_cases h2 : clipValue s.lon (-180) 180 ≠ s.lon
    · have horigLat : dictGet r cfg.lat_field = Value.num s.lat := by
        rcases hplat with hp | hp
        · exact hp
        · exact absurd (clipValue_of_mem s.lat (-90) 90 hp.1 hp.2) h1
      have horigLon : dictGet r cfg.lon_field = Value.num s.lon := by
        rcases hplon with hp | hp
        · exact hp
        · exact absurd (clipValue_of_mem s.lon (-180) 180 hp.1 hp.2) h2
      simp only [if_pos h1, if_pos h2]
      refine ⟨?_, ?_, ?_⟩
      · intro k hk1 hk2
        rw [alFind_alSet_ne _ _ _ _ hk2, alFind_alSet_ne _ _ _ _ hk1]
        exact h.1 k hk1 hk2
      · intro pr hpr
        rw [alFind_alSet_ne _ _ _ _ hd, alFind_alSet_self] at hpr
        rcases Option.some_inj.mp hpr.symm with rfl
        exact ⟨horigLat.symm, rfl⟩
      · intro pr hpr
        rw [alFind_alSet_self] at hpr
        rcases Option.some_inj.mp hpr.symm with rfl
        exact ⟨horigLon.symm, rfl⟩
    · have horigLat : dictGet r cfg.lat_field = Value.num s.lat := by
        rcases hplat with hp | hp
        · exact hp
        · exact absurd (clipValue_of_mem s.lat (-90) 90 hp.1 hp.2) h1
      have h2' : clipValue s.lon (-180) 180 = s.lon := not_not.mp h2
      simp only [if_pos h1, if_neg h2]
      refine ⟨?_, ?_, ?_⟩
      · intro k hk1 hk2
        rw [alFind_alSet_ne _ _ _ _ hk1]
        exact h.1 k hk1 hk2
      · intro pr hpr
        rw [alFind_alSet_self] at hpr
        rcases Option.some_inj.mp hpr.symm with rfl
        exact ⟨horigLat.symm, rfl⟩
      · intro pr hpr
        rw [alFind_alSet_ne _ _ _ _ (Ne.symm hd)] at hpr
        have hold := h.2.2 pr hpr
        rw [h2']
        exact hold
    · have horigLon : dictGet r cfg.lon_field = Value.num s.lon := by
        rcases hplon with hp | hp
        · exact hp
        · exact absurd (clipValue_of_mem s.lon (-180) 180 hp.1 hp.2) h2
      have h1' : clipValue s.lat (-90) 90 = s.lat := not_not.mp h1
      simp only [if_neg h1, if_pos h2]
      refine ⟨?_, ?_, ?_⟩
      · intro k hk1 hk2
        rw [alFind_alSet_ne _ _ _ _ hk2]
        exact h.1 k hk1 hk2
      · intro pr hpr
        rw [alFind_alSet_ne _ _ _ _ hd] at hpr
        have hold := h.2.1 pr hpr
        rw [h1']
        exact hold
      · intro pr hpr
        rw [alFind_alSet_self] at hpr
        rcases Option.some_inj.mp hpr.symm with rfl
        exact ⟨horigLon.symm, rfl⟩
    · have h1' : clipValue s.lat (-90) 90 = s.lat := not_not.mp h1
      have h2' : clipValue s.lon (-180) 180 = s.lon := not_not.mp h2
      simp only [if_neg h1, if_neg h2]
      refine ⟨h.1, ?_, ?_⟩
      · intro pr hpr
        have hold := h.2.1 pr hpr
        rw [h1']
        exact hold
      · intro pr hpr
        have hold := h.2.2 pr hpr
        rw [h2']
        exact hold
  · rw [clipStage_false _ _ (by simpa using hc)]
    exact h



theorem coerceValue_of_num (q : ℚ) : coerceValue (Value.num q) = (some q, [], false) := rfl

theorem coerceValue_of_none : coerceValue Value.none = (Option.none, [], false) := rfl

/-- The else branch of fix_record as one state value. -/
def chainResult (cfg : FixerConfig) (r : Record) : ChainState :=
  clipStage cfg (outlierStage cfg (dictGet r cfg.lat_field) (dictGet r cfg.lon_field)
    (wrapStage cfg (swapStage cfg (dictGet r cfg.lat_field) (dictGet r cfg.lon_field)
      (fillStage cfg (dictGet r cfg.lat_field) (dictGet r cfg.lon_field)
        (coerceStage cfg (dictGet r cfg.lat_field) (dictGet r cfg.lon_field)).1.1
        (coerceStage cfg (dictGet r cfg.lat_field) (dictGet r cfg.lon_field)).1.2
        (coerceStage cfg (dictGet r cfg.lat_field) (dictGet r cfg.lon_field)).2.1
        (coerceStage cfg (dictGet r cfg.lat_field) (dictGet r cfg.lon_field)).2.2))))

theorem fixRecord_not_both_none (cfg : FixerConfig) (r : Record)
    (hne : ¬((coerceStage cfg (dictGet r cfg.lat_field) (dictGet r cfg.lon_field)).1.1 =
        Option.none ∧
      (coerceStage cfg (dictGet r cfg.lat_field) (dictGet r cfg.lon_field)).1.2 =
        Option.none)) :
    fixRecord cfg r =
      { record := dictSet (dictSet r cfg.lat_field (Value.num (chainResult cfg r).lat))
          cfg.lon_field (Value.num (chainResult cfg r).lon),
        fixes := (chainResult cfg r).fixes,
        changes := (chainResult cfg r).changes } := by
  simp only [fixRecord, chainResult]
  rw [if_neg hne]

theorem changesOk_conclusion (cfg : FixerConfig) (r : Record) (s : ChainState)
    (hd : cfg.lat_field ≠ cfg.lon_field) (h : changesOk cfg r s) :
    ∀ k pr, alFind s.changes k = some pr →
      pr.1 = dictGet r k ∧
      pr.2 = dictGet (dictSet (dictSet r cfg.lat_field (Value.num s.lat))
        cfg.lon_field (Value.num s.lon)) k := by
  intro k pr hk
  by_cases h1 : k = cfg.lat_field
  · subst h1
    have := h.2.1 pr hk
    rw [dictGet_dictSet_ne _ _ _ _ hd, dictGet_dictSet_self]
    exact this
  · by_cases h2 : k = cfg.lon_field
    · subst h2
      have := h.2.2 pr hk
      rw [dictGet_dictSet_self]
      exact this
    · rw [h.1 k h1 h2] at hk
      exact absurd hk (by simp)

/-- C2 (amended): when the coordinate values of the record are native numbers
or null and the fallback pair is within canonical bounds (field names
distinct), every entry of the changes map is exactly (value of that field in
the original record, value of that field in the returned record). -/
theorem fixRecord_changes_audit (cfg : FixerConfig) (r : Record)
    (hd : cfg.lat_field ≠ cfg.lon_field)
    (hfb1 : |cfg.fallback.1| ≤ 90) (hfb2 : |cfg.fallback.2| ≤ 180)
    (hvlat : numOrNull (dictGet r cfg.lat_field))
    (hvlon : numOrNull (dictGet r cfg.lon_field)) :
    ∀ k pr, alFind (fixRecord cfg r).changes k = some pr →
      pr.1 = dictGet r k ∧ pr.2 = dictGet (fixRecord cfg r).record k := by
  rcases hvlat with hv1 | ⟨qa, hv1⟩ <;> rcases hvlon with hv2 | ⟨qb, hv2⟩
  · -- both null: the early return writes both fallback components
    have hclT : coerceValue (dictGet r cfg.lat_field) = (Option.none, [], false) := by
      rw [hv1]
      rfl
    have hcnT : coerceValue (dictGet r cfg.lon_field) = (Option.none, [], false) := by
      rw [hv2]
      rfl
    have hred : fixRecord cfg r =
        { record := dictSet (dictSet r cfg.lat_field (Value.num cfg.fallback.1))
            cfg.lon_field (Value.num cfg.fallback.2),
          fixes := [] ++ [] ++ ["filled_missing"],
          changes := alSet (alSet ([] : Changes) cfg.lat_field
              (dictGet r cfg.lat_field, Value.num cfg.fallback.1))
            cfg.lon_field (dictGet r cfg.lon_field, Value.num cfg.fallback.2) } := by
      rw [fixRecord, coerceStage_spec, hclT, hcnT]
      simp
    rw [hred]
    intro k pr hk
    by_cases h1 : k = cfg.lat_field
    · subst h1
      rw [alFind_alSet_ne _ _ _ _ hd, alFind_alSet_self] at hk
      rcases Option.some_inj.mp hk.symm with rfl
      rw [dictGet_dictSet_ne _ _ _ _ hd, dictGet_dictSet_self]
      exact ⟨rfl, rfl⟩
    · by_cases h2 : k = cfg.lon_field
      · subst h2
        rw [alFind_alSet_self] at hk
        rcases Option.some_inj.mp hk.symm with rfl
        rw [dictGet_dictSet_self]
        exact ⟨rfl, rfl⟩
      · rw [alFind_alSet_ne _ _ _ _ h2, alFind_alSet_ne _ _ _ _ h1] at hk
        exact absurd hk (by simp [alFind])
  · -- latitude null, longitude numeric
    have hclT : coerceValue (dictGet r cfg.lat_field) = (Option.none, [], false) := by
      rw [hv1]
      rfl
    have hcnT : coerceValue (dictGet r cfg.lon_field) = (some qb, [], false) := by
      rw [hv2]
      rfl
    have hne : ¬((coerceStage cfg (dictGet r cfg.lat_field) (dictGet r cfg.lon_field)).1.1 =
        Option.none ∧
        (coerceStage cfg (dictGet r cfg.lat_field) (dictGet r cfg.lon_field)).1.2 =
          Option.none) := by
      rw [coerceStage_spec]
      simp [hclT, hcnT]
    have hfill : fillStage cfg (dictGet r cfg.lat_field) (dictGet r cfg.lon_field)
        (coerceStage cfg (dictGet r cfg.lat_field) (dictGet r cfg.lon_field)).1.1
        (coerceStage cfg (dictGet r cfg.lat_field) (dictGet r cfg.lon_field)).1.2
        (coerceStage cfg (dictGet r cfg.lat_field) (dictGet r cfg.lon_field)).2.1
        (coerceStage cfg (dictGet r cfg.lat_field) (dictGet r cfg.lon_field)).2.2 =
        ⟨cfg.fallback.1, qb, [] ++ [] ++ ["lat_filled"],
          alSet ([] : Changes) cfg.lat_field
            (dictGet r cfg.lat_field, Value.num cfg.fallback.1)⟩ := by
      rw [coerceStage_spec]
      simp only [hclT, hcnT, Bool.false_eq_true, if_false]
      rw [fillStage_none_some]
    have h0 : changesOk cfg r ⟨cfg.fallback.1, qb, [] ++ [] ++ ["lat_filled"],
        alSet ([] : Changes) cfg.lat_field
          (dictGet r cfg.lat_field, Value.num cfg.fallback.1)⟩ := by
      refine ⟨?_, ?_, ?_⟩
      · intro k hk1 hk2
        rw [alFind_alSet_ne _ _ _ _ hk1]
        simp [alFind]
      · intro pr hpr
        rw [alFind_alSet_self] at hpr
        rcases Option.some_inj.mp hpr.symm with rfl
        exact ⟨rfl, rfl⟩
      · intro pr hpr
        rw [alFind_alSet_ne _ _ _ _ (Ne.symm hd)] at hpr
        exact absurd hpr (by simp [alFind])
    have hp0lat : latProv cfg r ⟨cfg.fallback.1, qb, [] ++ [] ++ ["lat_filled"],
        alSet ([] : Changes) cfg.lat_field
          (dictGet r cfg.lat_field, Value.num cfg.fallback.1)⟩ :=
      Or.inr (abs_le.mp hfb1)
    have hp0lon : lonProv cfg r ⟨cfg.fallback.1, qb, [] ++ [] ++ ["lat_filled"],
        alSet ([] : Changes) cfg.lat_field
          (dictGet r cfg.lat_field, Value.num cfg.fallback.1)⟩ :=
      Or.inl hv2
    rw [fixRecord_not_both_none cfg r hne]
    have hchain : changesOk cfg r (chainResult cfg r) := by
      rw [chainResult, hfill]
      have h1 := changesOk_swapStage cfg r _ _ _ hd rfl rfl h0
      have hp1 := prov_swapStage cfg r (dictGet r cfg.lat_field) (dictGet r cfg.lon_field) _
        hp0lat hp0lon
      have h2 := changesOk_wrapStage cfg r _ hd hp1.2 h1
      have hp2 := prov_wrapStage cfg r _ hp1.1 hp1.2
      have h3 := changesOk_outlierStage cfg r _ _ _ hd rfl rfl h2
      have hp3 := prov_outlierStage cfg r (dictGet r cfg.lat_field) (dictGet r cfg.lon_field) _
        hfb1 hfb2 hp2.1 hp2.2
      exact changesOk_clipStage cfg r _ hd hp3.1 hp3.2 h3
    exact changesOk_conclusion cfg r (chainResult cfg r) hd hchain
  · -- latitude numeric, longitude null
    have hclT : coerceValue (dictGet r cfg.lat_field) = (some qa, [], false) := by
      rw [hv1]
      rfl
    have hcnT : coerceValue (dictGet r cfg.lon_field) = (Option.none, [], false) := by
      rw [hv2]
      rfl
    have hne : ¬((coerceStage cfg (dictGet r cfg.lat_field) (dictGet r cfg.lon_field)).1.1 =
        Option.none ∧
        (coerceStage cfg (dictGet r cfg.lat_field) (dictGet r cfg.lon_field)).1.2 =
          Option.none) := by
      rw [coerceStage_spec]
      simp [hclT, hcnT]
    have hfill : fillStage cfg (dictGet r cfg.lat_field) (dictGet r cfg.lon_field)
        (coerceStage cfg (dictGet r cfg.lat_field) (dictGet r cfg.lon_field)).1.1
        (coerceStage cfg (dictGet r cfg.lat_field) (dictGet r cfg.lon_field)).1.2
        (coerceStage cfg (dictGet r cfg.lat_field) (dictGet r cfg.lon_field)).2.1
        (coerceStage cfg (dictGet r cfg.lat_field) (dictGet r cfg.lon_field)).2.2 =
        ⟨qa, cfg.fallback.2, [] ++ [] ++ ["lon_filled"],
          alSet ([] : Changes) cfg.lon_field
            (dictGet r cfg.lon_field, Value.num cfg.fallback.2)⟩ := by
      rw [coerceStage_spec]
      simp only [hclT, hcnT, Bool.false_eq_true, if_false]
      rw [fillStage_some_none]
    have h0 : changesOk cfg r ⟨qa, cfg.fallback.2, [] ++ [] ++ ["lon_filled"],
        alSet ([] : Changes) cfg.lon_field
          (dictGet r cfg.lon_field, Value.num cfg.fallback.2)⟩ := by
      refine ⟨?_, ?_, ?_⟩
      · intro k hk1 hk2
        rw [alFind_alSet_ne _ _ _ _ hk2]
        simp [alFind]
      · intro pr hpr
        rw [alFind_alSet_ne _ _ _ _ hd] at hpr
        exact absurd hpr (by simp [alFind])
      · intro pr hpr
        rw [alFind_alSet_self] at hpr
        rcases Option.some_inj.mp hpr.symm with rfl
        exact ⟨rfl, rfl⟩
    have hp0lat : latProv cfg r ⟨qa, cfg.fallback.2, [] ++ [] ++ ["lon_filled"],
        alSet ([] : Changes) cfg.lon_field
          (dictGet r cfg.lon_field, Value.num cfg.fallback.2)⟩ :=
      Or.inl hv1
    have hp0lon : lonProv cfg r ⟨qa, cfg.fallback.2, [] ++ [] ++ ["lon_filled"],
        alSet ([] : Changes) cfg.lon_field
          (dictGet r cfg.lon_field, Value.num cfg.fallback.2)⟩ :=
      Or.inr (abs_le.mp hfb2)
    rw [fixRecord_not_both_none cfg r hne]
    have hchain : changesOk cfg r (chainResult cfg r) := by
      rw [chainResult, hfill]
      have h1 := changesOk_swapStage cfg r _ _ _ hd rfl rfl h0
      have hp1 := prov_swapStage cfg r (dictGet r cfg.lat_field) (dictGet r cfg.lon_field) _
        hp0lat hp0lon
      have h2 := changesOk_wrapStage cfg r _ hd hp1.2 h1
      have hp2 := prov_wrapStage cfg r _ hp1.1 hp1.2
      have h3 := changesOk_outlierStage cfg r _ _ _ hd rfl rfl h2
      have hp3 := prov_outlierStage cfg r (dictGet r cfg.lat_field) (dictGet r cfg.lon_field) _
        hfb1 hfb2 hp2.1 hp2.2
      exact changesOk_clipStage cfg r _ hd hp3.1 hp3.2 h3
    exact changesOk_conclusion cfg r (chainResult cfg r) hd hchain
  · -- both numeric
    have hclT : coerceValue (dictGet r cfg.lat_field) = (some qa, [], false) := by
      rw [hv1]
      rfl
    have hcnT : coerceValue (dictGet r cfg.lon_field) = (some qb, [], false) := by
      rw [hv2]
      rfl
    have hne : ¬((coerceStage cfg (dictGet r cfg.lat_field) (dictGet r cfg.lon_field)).1.1 =
        Option.none ∧
        (coerceStage cfg (dictGet r cfg.lat_field) (dictGet r cfg.lon_field)).1.2 =
          Option.none) := by
      rw [coerceStage_spec]
      simp [hclT, hcnT]
    have hfill : fillStage cfg (dictGet r cfg.lat_field) (dictGet r cfg.lon_field)
        (coerceStage cfg (dictGet r cfg.lat_field) (dictGet r cfg.lon_field)).1.1
        (coerceStage cfg (dictGet r cfg.lat_field) (dictGet r cfg.lon_field)).1.2
        (coerceStage cfg (dictGet r cfg.lat_field) (dictGet r cfg.lon_field)).2.1
        (coerceStage cfg (dictGet r cfg.lat_field) (dictGet r cfg.lon_field)).2.2 =
        ⟨qa, qb, [] ++ [], ([] : Changes)⟩ := by
      rw [coerceStage_spec]
      simp only [hclT, hcnT, Bool.false_eq_true, if_false]
      rw [fillStage_some_some]
    have h0 : changesOk cfg r ⟨qa, qb, [] ++ [], ([] : Changes)⟩ := by
      refine ⟨?_, ?_, ?_⟩ <;> intro _ <;> simp [alFind]
    have hp0lat : latProv cfg r ⟨qa, qb, [] ++ [], ([] : Changes)⟩ := Or.inl hv1
    have hp0lon : lonProv cfg r ⟨qa, qb, [] ++ [], ([] : Changes)⟩ := Or.inl hv2
    rw [fixRecord_not_both_none cfg r hne]
    have hchain : changesOk cfg r (chainResult cfg r) := by
      rw [chainResult, hfill]
      have h1 := changesOk_swapStage cfg r _ _ _ hd rfl rfl h0
      have hp1 := prov_swapStage cfg r (dictGet r cfg.lat_field) (dictGet r cfg.lon_field) _
        hp0lat hp0lon
      have h2 := changesOk_wrapStage cfg r _ hd hp1.2 h1
      have hp2 := prov_wrapStage cfg r _ hp1.1 hp1.2
      have h3 := changesOk_outlierStage cfg r _ _ _ hd rfl rfl h2
      have hp3 := prov_outlierStage cfg r (dictGet r cfg.lat_field) (dictGet r cfg.lon_field) _
        hfb1 hfb2 hp2.1 hp2.2
      exact changesOk_clipStage cfg r _ hd hp3.1 hp3.2 h3
    exact changesOk_conclusion cfg r (chainResult cfg r) hd hchain

unseal Rat.add Rat.mul Rat.sub Rat.inv in
/-- Witness for C2 at a concrete numeric record: the wrap step rewrote the
longitude, and its changes entry pairs the original 350 with the final -10. -/
theorem fixRecord_changes_audit_witness :
    (Value.num 350, Value.num (-10)).1 =
        dictGet [("lat", Value.num 5), ("lon", Value.num 350)] "lon" ∧
      (Value.num 350, Value.num (-10)).2 =
        dictGet (fixRecord defaultFixer
          [("lat", Value.num 5), ("lon", Value.num 350)]).record "lon" :=
  fixRecord_changes_audit defaultFixer [("lat", Value.num 5), ("lon", Value.num 350)]
    (by decide) (by decide) (by decide)
    (Or.inr ⟨5, by decide⟩) (Or.inr ⟨350, by decide⟩)
    "lon" (Value.num 350, Value.num (-10)) (by decide)

unseal Rat.add Rat.mul Rat.sub Rat.inv in
/-- Counterexample to C2 as stated: a textual longitude is first coerced to a
number and then wrapped, and the wrap entry stores the intermediate coerced
number 350, not the original text, as its first component. -/
theorem fixRecord_changes_intermediate_counterexample :
    alFind (fixRecord defaultFixer
        [("lat", Value.num 1), ("lon", Value.str "350")]).changes "lon" =
      some (Value.num 350, Value.num (-10)) ∧
    dictGet [("lat", Value.num 1), ("lon", Value.str "350")] "lon" = Value.str "350" ∧
    (Value.num 350 : Value) ≠ Value.str "350" := by
  decide

end GeoCleanr
